import Mathlib

/-!
Shallow embedding of the infra control-plane core: the version-compatibility
router (`internal/server/routes.go`), the access-key credential lifecycle
(`internal/server/data/access_key.go`) and the grant authorization engine
(`internal/access/access.go`).

Go `time.Time` values are modelled as `Nat` (0 is the zero time, `IsZero`
is `= 0`, `After` is `>`); durations are `Nat`; `uid.ID` is `Nat` (0 is the
zero ID); byte slices are `List Nat`.
-/

set_option maxRecDepth 100000

namespace Infra

/-- Go errors as a wrap chain: `errors.New`/`fmt.Errorf` produce `base`,
`fmt.Errorf` with `%w` produces `wrap`, and `access.AuthorizationError`
(a struct with fields and a custom `Is` method) is `authorization`.
Distinct sentinel values are distinct constructor applications, so the
structural equality used below coincides with Go's pointer identity for
the sentinels that appear in this development. -/
inductive GoError where
  | base (msg : String)
  | wrap (msg : String) (inner : GoError)
  | authorization (resource : String) (operation : String) (requiredRoles : List String)
deriving DecidableEq, Repr

/-- One step of Go's `errors.Is`: `err == target`, or `err` has an
`Is(target)` method that reports a match. `AuthorizationError.Is(other)`
returns `other == ErrNotAuthorized` (access.go line 86). -/
def errTargetMatch (notAuthorizedSentinel : GoError) (e target : GoError) : Bool :=
  decide (e = target) ||
    match e with
    | .authorization _ _ _ => decide (target = notAuthorizedSentinel)
    | _ => false

/-- Sentinel `ErrNotAuthorized` from access.go line 56. -/
def ErrNotAuthorized : GoError := .base "not authorized"

/-- Go's `errors.Is`: walk the unwrap chain, at each step comparing with
the target and consulting the custom `Is` method. -/
def errorsIs : GoError → GoError → Bool
  | e, target =>
    errTargetMatch ErrNotAuthorized e target ||
      match e with
      | .wrap _ inner => errorsIs inner target
      | _ => false

/-- Modelled from the spec: `internal.ErrBadRequest`, the `BadRequestError`
sentinel of the error taxonomy (the `internal` package is not part of the
provided sources). -/
def ErrBadRequest : GoError := .base "bad request"

/-- Modelled from the spec: `internal.ErrNotFound`, the `NotFoundError`
sentinel of the error taxonomy. -/
def ErrNotFound : GoError := .base "record not found"

/-! ## Semantic versions and the version-compatibility router (routes.go) -/

/-- A semantic version `major.minor.patch`. -/
structure SemVer where
  major : Nat
  minor : Nat
  patch : Nat
deriving DecidableEq, Repr

/-- Strict lexicographic order on (major, minor, patch); this is the
comparison performed by the external semver library's `LessThan`. -/
def semverLt (a b : SemVer) : Bool :=
  a.major < b.major ||
    (a.major == b.major &&
      (a.minor < b.minor || (a.minor == b.minor && a.patch < b.patch)))

/-- `a.GreaterThan(b)` of the external semver library. -/
def semverGt (a b : SemVer) : Bool := semverLt b a

/-- Splits a character list at every dot. -/
def splitDots : List Char → List (List Char)
  | [] => [[]]
  | c :: rest =>
    if c = '.' then [] :: splitDots rest
    else
      match splitDots rest with
      | [] => [[c]]
      | x :: xs => (c :: x) :: xs

/-- Parses a non-empty all-digit character list as a decimal number. -/
def parseNatDigits (cs : List Char) : Option Nat :=
  if cs ≠ [] ∧ cs.all Char.isDigit then
    some (cs.foldl (fun a c => a * 10 + (c.toNat - 48)) 0)
  else none

/-- Modelled from the external `Masterminds/semver` library's `NewVersion`
for plain numeric versions: an optional leading `v`, then one to three
dot-separated decimal components (missing components default to zero);
anything else fails to parse. -/
def parseSemVer (s : String) : Option SemVer :=
  let cs := match s.data with | 'v' :: rest => rest | cs => cs
  match (splitDots cs).mapM parseNatDigits with
  | some [m] => some ⟨m, 0, 0⟩
  | some [m, n] => some ⟨m, n, 0⟩
  | some [m, n, p] => some ⟨m, n, p⟩
  | _ => none

/-- Embeds `versionFromHeader` (routes.go lines 187-201). The argument is the
value of `req.Header.Get("Infra-Version")`, which is `""` when the header
is absent. Faithful to the source: an empty header is first replaced by
`"0.0.0"` (the `TODO: remove in v0.15.0` fallback), which makes the
`Infra-Version header required` error branch unreachable. -/
def versionFromHeader (headerValue : String) : Except GoError SemVer :=
  let headerVer := if headerValue == "" then "0.0.0" else headerValue
  if headerVer == "" then
    .error (.wrap "Infra-Version header required" ErrBadRequest)
  else
    match parseSemVer headerVer with
    | none => .error (.wrap "invalid Infra-Version header" ErrBadRequest)
    | some reqVer => .ok reqVer

/-- Embeds `handlerForVersion` (routes.go lines 203-212): scan the registered
`(version, handler)` list in order and return the first handler whose
version is not less than the requested version. -/
def handlerForVersion {α : Type} (versions : List (SemVer × α)) (reqVer : SemVer) : Option α :=
  match versions with
  | [] => none
  | (v, h) :: rest =>
    if semverGt reqVer v then handlerForVersion rest reqVer else some h

/-- Outcome of the dispatch closure built by `add` (routes.go lines
160-173): a version-header error sent via `sendAPIError`, a versioned
handler, or fall-through to the latest handler (`wrapHandler`). -/
inductive Dispatched (α : Type) where
  | badRequest (e : GoError)
  | versioned (h : α)
  | latest
deriving DecidableEq, Repr

/-- The dispatch closure of `add` (routes.go lines 160-173). -/
def dispatch {α : Type} (versions : List (SemVer × α)) (headerValue : String) : Dispatched α :=
  match versionFromHeader headerValue with
  | .error e => .badRequest e
  | .ok reqVer =>
    match handlerForVersion versions reqVer with
    | some h => .versioned h
    | none => .latest

/-! ## SHA-256 (the external `crypto/sha256.Sum256`), over `Nat` machine words -/

/-- Truncation to a 32-bit word. -/
def w32 (n : Nat) : Nat := n % 4294967296

/-- Right rotation of a 32-bit word by `n` bits. -/
def rotr32 (n x : Nat) : Nat := w32 ((x >>> n) ||| (x <<< (32 - n)))

/-- SHA-256 sigma-0 message-schedule function. -/
def smallSigma0 (x : Nat) : Nat := (rotr32 7 x) ^^^ (rotr32 18 x) ^^^ (x >>> 3)

/-- SHA-256 sigma-1 message-schedule function. -/
def smallSigma1 (x : Nat) : Nat := (rotr32 17 x) ^^^ (rotr32 19 x) ^^^ (x >>> 10)

/-- SHA-256 Sigma-0 compression function. -/
def bigSigma0 (x : Nat) : Nat := (rotr32 2 x) ^^^ (rotr32 13 x) ^^^ (rotr32 22 x)

/-- SHA-256 Sigma-1 compression function. -/
def bigSigma1 (x : Nat) : Nat := (rotr32 6 x) ^^^ (rotr32 11 x) ^^^ (rotr32 25 x)

/-- The 64 SHA-256 round constants of FIPS 180-4, written in decimal. -/
def sha256K : List Nat :=
  [1116352408, 1899447441, 3049323471, 3921009573, 961987163, 1508970993,
   2453635748, 2870763221, 3624381080, 310598401, 607225278, 1426881987,
   1925078388, 2162078206, 2614888103, 3248222580, 3835390401, 4022224774,
   264347078, 604807628, 770255983, 1249150122, 1555081692, 1996064986,
   2554220882, 2821834349, 2952996808, 3210313671, 3336571891, 3584528711,
   113926993, 338241895, 666307205, 773529912, 1294757372, 1396182291,
   1695183700, 1986661051, 2177026350, 2456956037, 2730485921, 2820302411,
   3259730800, 3345764771, 3516065817, 3600352804, 4094571909, 275423344,
   430227734, 506948616, 659060556, 883997877, 958139571, 1322822218,
   1537002063, 1747873779, 1955562222, 2024104815, 2227730452, 2361852424,
   2428436474, 2756734187, 3204031479, 3329325298]

/-- The SHA-256 initial hash state of FIPS 180-4, written in decimal. -/
def sha256Init : List Nat :=
  [1779033703, 3144134277, 1013904242, 2773480762,
   1359893119, 2600822924, 528734635, 1541459225]

/-- Big-endian byte expansion of a value into `k` bytes. -/
def beBytes : Nat → Nat → List Nat
  | 0, _ => []
  | k + 1, v => beBytes k (v / 256) ++ [v % 256]

/-- Big-endian word from a list of bytes. -/
def bytesToWord (bs : List Nat) : Nat := bs.foldl (fun acc b => acc * 256 + b) 0

/-- Helper for `chunkBy`; the fuel bounds the number of chunks. -/
def chunkByAux (n : Nat) : Nat → List Nat → List (List Nat)
  | 0, _ => []
  | _, [] => []
  | fuel + 1, xs => xs.take n :: chunkByAux n fuel (xs.drop n)

/-- Splits a byte list into chunks of `n` bytes (the last chunk may be shorter). -/
def chunkBy (n : Nat) (xs : List Nat) : List (List Nat) := chunkByAux n xs.length xs

/-- SHA-256 padding: append `0x80`, zero bytes to 56 mod 64, and the
64-bit big-endian bit length. -/
def sha256Pad (msg : List Nat) : List Nat :=
  msg ++ [0x80] ++ List.replicate ((119 - msg.length % 64) % 64) 0 ++ beBytes 8 (8 * msg.length)

/-- Extends the 16-word message schedule to 64 words. -/
def extendSchedule : Nat → List Nat → List Nat
  | 0, w => w
  | k + 1, w =>
    let i := w.length
    let next := w32 (w.getD (i - 16) 0 + smallSigma0 (w.getD (i - 15) 0) +
      w.getD (i - 7) 0 + smallSigma1 (w.getD (i - 2) 0))
    extendSchedule k (w ++ [next])

/-- One SHA-256 compression round; the state is `[a, b, c, d, e, f, g, h]`
and `kw` is the pair of round constant and schedule word. -/
def sha256Round (state : List Nat) (kw : Nat × Nat) : List Nat :=
  match state with
  | [a, b, c, d, e, f, g, h] =>
    let ch := (e &&& f) ^^^ ((e ^^^ 0xffffffff) &&& g)
    let maj := (a &&& b) ^^^ (a &&& c) ^^^ (b &&& c)
    let t1 := w32 (h + bigSigma1 e + ch + kw.1 + kw.2)
    let t2 := w32 (bigSigma0 a + maj)
    [w32 (t1 + t2), a, b, c, w32 (d + t1), e, f, g]
  | s => s

/-- Compresses one 64-byte block into the running hash state. -/
def sha256Compress (h : List Nat) (block : List Nat) : List Nat :=
  let w := extendSchedule 48 ((chunkBy 4 block).map bytesToWord)
  let st := (sha256K.zip w).foldl sha256Round h
  (h.zip st).map fun p => w32 (p.1 + p.2)

/-- SHA-256 digest of a byte list: 32 bytes. -/
def sha256Bytes (msg : List Nat) : List Nat :=
  ((chunkBy 64 (sha256Pad msg)).foldl sha256Compress sha256Init).foldr
    (fun wrd acc => beBytes 4 wrd ++ acc) []

/-- Bytes of a Go string. Key material in this development is alphanumeric
ASCII, for which the UTF-8 bytes are the code points. -/
def strBytes (s : String) : List Nat := s.data.map Char.toNat

/-! ## Access keys (internal/server/data/access_key.go) -/

/-- Modelled from the spec: `models.AccessKeyKeyLength`, the fixed length
of the public `KeyID` token (the `models` package is not part of the
provided sources; the length is a configuration constant). -/
def AccessKeyKeyLength : Nat := 10

/-- Modelled from the spec: `models.AccessKeySecretLength`, the fixed
length of the secret. -/
def AccessKeySecretLength : Nat := 24

/-- Modelled from the spec: `models.AccessKey`, the in-memory record the
Access Key Service operates on; field set taken from the columns of
`accessKeyTable` plus the non-persisted plaintext `secret`. -/
structure AccessKey where
  id : Nat
  createdAt : Nat
  updatedAt : Nat
  deletedAt : Option Nat
  name : String
  issuedFor : Nat
  providerID : Nat
  expiresAt : Nat
  extension : Nat
  extensionDeadline : Nat
  keyID : String
  secret : String
  secretChecksum : List Nat
  scopes : List String
  organizationID : Nat
deriving DecidableEq, Repr

/-- A persisted row of the `access_keys` table, one field per column of
`accessKeyTable.Columns` (access_key.go lines 25-27), in column order.
There is no column for the plaintext secret. -/
structure AccessKeyRow where
  createdAt : Nat
  deletedAt : Option Nat
  expiresAt : Nat
  extension : Nat
  extensionDeadline : Nat
  id : Nat
  issuedFor : Nat
  keyID : String
  name : String
  organizationID : Nat
  providerID : Nat
  scopes : List String
  secretChecksum : List Nat
  updatedAt : Nat
deriving DecidableEq, Repr

/-- Embeds `accessKeyTable.Columns` (access_key.go line 26). -/
def accessKeyColumns : List String :=
  ["created_at", "deleted_at", "expires_at", "extension", "extension_deadline", "id",
   "issued_for", "key_id", "name", "organization_id", "provider_id", "scopes",
   "secret_checksum", "updated_at"]

/-- Embeds `accessKeyTable.Values` (access_key.go lines 29-31): the
projection of an in-memory key onto the persisted columns. -/
def accessKeyValues (a : AccessKey) : AccessKeyRow :=
  { createdAt := a.createdAt, deletedAt := a.deletedAt, expiresAt := a.expiresAt,
    extension := a.extension, extensionDeadline := a.extensionDeadline, id := a.id,
    issuedFor := a.issuedFor, keyID := a.keyID, name := a.name,
    organizationID := a.organizationID, providerID := a.providerID, scopes := a.scopes,
    secretChecksum := a.secretChecksum, updatedAt := a.updatedAt }

/-- Embeds `accessKeyTable.ScanFields` (access_key.go lines 33-35): the
in-memory key read back from a row. No column feeds `secret`, so it is
empty after a read. -/
def scanAccessKey (r : AccessKeyRow) : AccessKey :=
  { id := r.id, createdAt := r.createdAt, updatedAt := r.updatedAt, deletedAt := r.deletedAt,
    name := r.name, issuedFor := r.issuedFor, providerID := r.providerID,
    expiresAt := r.expiresAt, extension := r.extension, extensionDeadline := r.extensionDeadline,
    keyID := r.keyID, secret := "", secretChecksum := r.secretChecksum, scopes := r.scopes,
    organizationID := r.organizationID }

/-- The `access_keys` table contents, in insertion (primary key) order. -/
abbrev AccessKeyStore := List AccessKeyRow

/-- Sentinel `ErrAccessKeyExpired` (access_key.go line 38). -/
def ErrAccessKeyExpired : GoError := .base "access key expired"

/-- Sentinel `ErrAccessKeyDeadlineExceeded` (access_key.go line 39),
built with `fmt.Errorf` wrapping `ErrAccessKeyExpired` via `%w`. -/
def ErrAccessKeyDeadlineExceeded : GoError :=
  .wrap "extension deadline exceeded" ErrAccessKeyExpired

/-- Embeds `secretChecksum` (access_key.go lines 42-45). -/
def secretChecksum (secret : String) : List Nat := sha256Bytes (strBytes secret)

/-- Embeds `subtle.ConstantTimeCompare` of the external `crypto/subtle`
package, returned as `true` for 1: zero when lengths differ, otherwise
the or-accumulation of bytewise xors compared with zero. -/
def constantTimeCompare (x y : List Nat) : Bool :=
  x.length == y.length &&
    ((x.zip y).foldl (fun acc p => acc ||| (p.1 ^^^ p.2)) 0 == 0)

/-- Embeds `strings.Cut(s, ".")` on the character list: split at the
first dot, `none` when there is no dot. -/
def cutList : List Char → Option (List Char × List Char)
  | [] => none
  | c :: rest =>
    if c = '.' then some ([], rest)
    else (cutList rest).map fun p => (c :: p.1, p.2)

/-- Lifts `cutList` to strings, giving `strings.Cut(authnKey, ".")`. -/
def cutDot (s : String) : Option (String × String) :=
  (cutList s.data).map fun p => (String.mk p.1, String.mk p.2)

/-- Embeds `GetAccessKey(tx, ByKeyID(keyID))` (access_key.go lines
115-130): the first row matching the key id, scanned back into a key;
`internal.ErrNotFound` when there is none. The query is intentionally
not filtered by organization (key ids are globally unique), but the
soft-delete filter of the store adapter applies (the spec's soft delete
tombstones rows rather than removing them). -/
def GetAccessKey (store : AccessKeyStore) (keyID : String) : Except GoError AccessKey :=
  match store.find? (fun r => decide (r.deletedAt = none ∧ r.keyID = keyID)) with
  | none => .error ErrNotFound
  | some r => .ok (scanAccessKey r)

/-- Modelled from the spec: an identity principal as read by
`GetIdentity` (the identity model is not part of the provided sources). -/
structure Identity where
  id : Nat
  name : String
deriving DecidableEq, Repr

/-- Modelled from the spec: `GetIdentity(db, ByID(id))` resolves an
identity by its numeric id, failing with a `NotFoundError` when absent. -/
def GetIdentity (identities : List Identity) (id : Nat) : Except GoError Identity :=
  match identities.find? (fun i => decide (i.id = id)) with
  | none => .error ErrNotFound
  | some i => .ok i

/-- Modelled from the external `uid` package: the opaque textual encoding
of `uid.ID.String()` used only to build the default key name. -/
def uidString (n : Nat) : String := toString n

/-- The `time.Hour * 12` default TTL; time is modelled in seconds. -/
def twelveHours : Nat := 12 * 60 * 60

/-- Step of `CreateAccessKey` at access_key.go lines 55-57: generate a
`KeyID` when none was supplied. -/
def withKeyID (genKeyID : String) (a : AccessKey) : AccessKey :=
  if a.keyID = "" then { a with keyID := genKeyID } else a

/-- Step of `CreateAccessKey` at access_key.go lines 63-70: generate a
secret when none was supplied. -/
def withSecret (genSecret : String) (a : AccessKey) : AccessKey :=
  if a.secret = "" then { a with secret := genSecret } else a

/-- Step of `CreateAccessKey` at access_key.go lines 78-80: default
`ExpiresAt` to now plus twelve hours when unset. -/
def withExpiry (now : Nat) (a : AccessKey) : AccessKey :=
  if a.expiresAt = 0 then { a with expiresAt := now + twelveHours } else a

/-- Step of `CreateAccessKey` at access_key.go lines 82-94: default the
name to `"{identity-name}-{new-id}"`, generating an id first when the key
has none; fails when the identity cannot be resolved. -/
def withName (identities : List Identity) (newID : Nat) (a : AccessKey) :
    Except GoError AccessKey :=
  if a.name = "" then
    let a1 := if a.id = 0 then { a with id := newID } else a
    match GetIdentity identities a1.issuedFor with
    | .error e => .error (.wrap "key name from identity" e)
    | .ok ident => .ok { a1 with name := ident.name ++ "-" ++ uidString a1.id }
  else .ok a

/-- Embeds `CreateAccessKey` (access_key.go lines 47-101). The external
random sources are parameters: `genKeyID` stands for the
`generate.MathRandom` key id, `genSecret` for the `generate.CryptoRandom`
secret, and `newID` for `uid.New()`; `now` is `time.Now()`. On success
the result is the composite credential body, the final (mutated) key and
the store with the inserted row. -/
def CreateAccessKey (store : AccessKeyStore) (identities : List Identity)
    (genKeyID genSecret : String) (newID : Nat) (now : Nat) (accessKey : AccessKey) :
    Except GoError (String × AccessKey × AccessKeyStore) :=
  if accessKey.issuedFor = 0 then .error (.base "issusedFor is required")
  else if accessKey.providerID = 0 then .error (.base "providerID is required")
  else
    let k1 := withKeyID genKeyID accessKey
    if k1.keyID.length ≠ AccessKeyKeyLength then .error (.base "invalid key length")
    else
      let k2 := withSecret genSecret k1
      if k2.secret.length ≠ AccessKeySecretLength then .error (.base "invalid secret length")
      else
        let k3 := { k2 with secretChecksum := secretChecksum k2.secret }
        let k4 := withExpiry now k3
        match withName identities newID k4 with
        | .error e => .error e
        | .ok k5 =>
          .ok (k5.keyID ++ "." ++ k5.secret, k5, store ++ [accessKeyValues k5])

/-- Modelled from the spec: the store adapter's `save`, an update of the
row with the same primary key. -/
def saveRow (store : AccessKeyStore) (row : AccessKeyRow) : AccessKeyStore :=
  store.map fun r => if r.id = row.id then row else r

/-- Embeds `SaveAccessKey` (access_key.go lines 103-109): recompute the
checksum when a plaintext secret is present, then save. Returns the
updated store together with the (possibly mutated) key. -/
def SaveAccessKey (store : AccessKeyStore) (key : AccessKey) : AccessKeyStore × AccessKey :=
  let key := if key.secret ≠ "" then { key with secretChecksum := secretChecksum key.secret } else key
  (saveRow store (accessKeyValues key), key)

/-- Embeds `ValidateAccessKey` (access_key.go lines 161-194). `now` is
`time.Now().UTC()`. On success the result is the validated key and the
store after any extension-deadline update. -/
def ValidateAccessKey (store : AccessKeyStore) (authnKey : String) (now : Nat) :
    Except GoError (AccessKey × AccessKeyStore) :=
  match cutDot authnKey with
  | none => .error (.base "invalid access key format")
  | some (keyID, secret) =>
    match GetAccessKey store keyID with
    | .error e => .error (.wrap "could not get access key from database, it may not exist" e)
    | .ok t =>
      let sum := secretChecksum secret
      if constantTimeCompare t.secretChecksum sum then
        if now > t.expiresAt then .error ErrAccessKeyExpired
        else if t.extensionDeadline ≠ 0 then
          if now > t.extensionDeadline then .error ErrAccessKeyDeadlineExceeded
          else
            let t1 := { t with extensionDeadline := now + t.extension }
            let saved := SaveAccessKey store t1
            .ok (saved.2, saved.1)
        else .ok (t, store)
      else .error (.base "access key invalid secret")

/-- Embeds `DeleteAccessKeysOptions` (access_key.go lines 132-140);
`uid.ID` zero values mean the selector is unset. -/
structure DeleteAccessKeysOptions where
  byID : Nat
  byUserID : Nat
  byProviderID : Nat
deriving DecidableEq, Repr

/-- Embeds `DeleteAccessKeys` (access_key.go lines 142-159): build
`UPDATE access_keys SET deleted_at = now WHERE <selector> AND
organization_id = <org>`; the selector is chosen by the `switch` with
`ByID` first, then `ByUserID`, then `ByProviderID`, and an error when all
are zero. -/
def DeleteAccessKeys (store : AccessKeyStore) (orgID : Nat) (now : Nat)
    (opts : DeleteAccessKeysOptions) : Except GoError AccessKeyStore :=
  let applyDelete (pred : AccessKeyRow → Bool) : AccessKeyStore :=
    store.map fun r =>
      if pred r && decide (r.organizationID = orgID) then { r with deletedAt := some now } else r
  if opts.byID ≠ 0 then .ok (applyDelete fun r => decide (r.id = opts.byID))
  else if opts.byUserID ≠ 0 then .ok (applyDelete fun r => decide (r.issuedFor = opts.byUserID))
  else if opts.byProviderID ≠ 0 then .ok (applyDelete fun r => decide (r.providerID = opts.byProviderID))
  else .error (.base "DeleteAccessKeys requires an ID to delete")

/-! ## Grant authorization engine (internal/access/access.go) -/

/-- The polymorphic subject identifier: a tagged union of principal kind
and numeric id (spec section 9 models it as a sum type). -/
inductive PolymorphicID where
  | user (id : Nat)
  | group (id : Nat)
deriving DecidableEq, Repr

/-- An authorization fact `(subject, privilege, resource)`, soft-deletable. -/
structure Grant where
  subject : PolymorphicID
  privilege : String
  resource : String
  deletedAt : Option Nat
deriving DecidableEq, Repr

/-- The grant store together with the group-membership relation
`(userID, groupID)` used for inherited lookups. -/
structure GrantStore where
  grants : List Grant
  memberships : List (Nat × Nat)
deriving DecidableEq, Repr

/-- Modelled from the spec: the predicate of `data.ListGrants` with
`IncludeInheritedFromGroups: true` (the `data` grant queries are not part
of the provided sources): a non-deleted grant on the given resource with
one of the given privileges, whose subject is the given subject or a
group the subject belongs to. -/
def grantMatches (db : GrantStore) (subject : PolymorphicID) (resource : String)
    (privileges : List String) (g : Grant) : Bool :=
  decide (g.deletedAt = none) && decide (g.resource = resource) &&
    decide (g.privilege ∈ privileges) &&
    (decide (g.subject = subject) ||
      match subject, g.subject with
      | .user userId, .group groupId => decide ((userId, groupId) ∈ db.memberships)
      | _, _ => false)

/-- Modelled from the spec: `data.ListGrants` with a pagination limit. -/
def ListGrants (db : GrantStore) (limit : Nat) (subject : PolymorphicID) (resource : String)
    (privileges : List String) : List Grant :=
  (db.grants.filter (grantMatches db subject resource privileges)).take limit

/-- Embeds `Can` (access.go lines 103-116): list grants for the subject,
resource and privileges with `Pagination{Limit: 1}` and report whether
the result is non-empty. -/
def Can (db : GrantStore) (identity : PolymorphicID) (resource : String)
    (privileges : List String) : Bool :=
  decide ((ListGrants db 1 identity resource privileges).length > 0)

/-- Embeds the role-joining loop of `AuthorizationError.Error`
(access.go lines 66-84): a single role stands alone; otherwise each role
is written followed by `", or "` before the last role and `", "` before
any other non-final role. -/
def rolesJoin (requiredRoles : List String) : String :=
  match requiredRoles with
  | [r] => r
  | rs =>
    (List.range rs.length).foldl
      (fun acc i =>
        let acc := acc ++ rs.getD i ""
        if i + 1 = rs.length - 1 then acc ++ ", or "
        else if i + 1 ≠ rs.length then acc ++ ", "
        else acc)
      ""

/-- Embeds the message of `AuthorizationError.Error` (access.go lines
82-83). -/
def authorizationErrorMessage (resource operation : String) (requiredRoles : List String) : String :=
  "you do not have permission to " ++ operation ++ " " ++ resource ++ ", requires role " ++
    rolesJoin requiredRoles

/-- Embeds `HandleAuthErr` (access.go lines 91-100); `none` is Go's nil
error, for which `errors.Is` reports no match. -/
def HandleAuthErr (err : Option GoError) (resource operation : String) (roles : List String) :
    Option GoError :=
  match err with
  | none => none
  | some e =>
    if errorsIs e ErrNotAuthorized then some (.authorization resource operation roles)
    else some e

/-! ## Sample data used by concrete witnesses -/

/-- A fixed, live access-key row for concrete instantiations. -/
def sampleRow : AccessKeyRow :=
  { createdAt := 0, deletedAt := none, expiresAt := 10000, extension := 50,
    extensionDeadline := 500, id := 1, issuedFor := 7, keyID := "keyid12345", name := "k",
    organizationID := 5, providerID := 3,
    scopes := [], secretChecksum := secretChecksum "secretsecretsecretsecret", updatedAt := 0 }

/-- A grant store where user 7 belongs to group 9 and group 9 holds the
`admin` privilege on `infra`; user 7 has no direct grant. -/
def sampleGrantDB : GrantStore :=
  { grants := [⟨.group 9, "admin", "infra", none⟩], memberships := [(7, 9)] }

/-- A creation request that supplies a key id of the fixed length which
contains a dot. -/
def dotKey : AccessKey :=
  { id := 1, createdAt := 0, updatedAt := 0, deletedAt := none, name := "k",
    issuedFor := 7, providerID := 3, expiresAt := 2000, extension := 0, extensionDeadline := 0,
    keyID := "a.bcdefghi", secret := "secretsecretsecretsecret", secretChecksum := [],
    scopes := [], organizationID := 5 }

/-- A creation request that leaves key id, secret, name, id and expiry to
be generated or defaulted. -/
def rtKey : AccessKey :=
  { id := 0, createdAt := 0, updatedAt := 0, deletedAt := none, name := "",
    issuedFor := 7, providerID := 3, expiresAt := 0, extension := 0, extensionDeadline := 0,
    keyID := "", secret := "", secretChecksum := [], scopes := [], organizationID := 5 }

/-- A key carrying a plaintext secret, as handed to `SaveAccessKey`. -/
def rtSecretKey : AccessKey := { rtKey with secret := "s" }

/-! ## Helper lemmas -/

/-- The or-of-xors accumulator of `constantTimeCompare` vanishes on a
list zipped with itself. -/
theorem ctcFold_self (x : List Nat) :
    (x.zip x).foldl (fun acc p => acc ||| (p.1 ^^^ p.2)) 0 = 0 := by
  induction x with
  | nil => rfl
  | cons a rest ih => simpa using ih

/-- Comparing a checksum with itself succeeds. -/
theorem constantTimeCompare_self (x : List Nat) : constantTimeCompare x x = true := by
  simp [constantTimeCompare, ctcFold_self]

/-- Cutting at the first dot of `a ++ '.' :: b` returns `(a, b)` when `a`
is dot-free. -/
theorem cutList_append (a b : List Char) (h : '.' ∉ a) :
    cutList (a ++ '.' :: b) = some (a, b) := by
  induction a with
  | nil => simp [cutList]
  | cons c rest ih =>
    have hc : c ≠ '.' := fun he => h (he ▸ List.mem_cons_self c rest)
    have hr : '.' ∉ rest := fun hm => h (List.mem_cons_of_mem c hm)
    simp [cutList, hc, ih hr]

/-- Cutting the composite credential recovers key id and secret when the
key id is dot-free. -/
theorem cutDot_append (s t : String) (h : '.' ∉ s.data) :
    cutDot (s ++ "." ++ t) = some (s, t) := by
  have hdata : (s ++ "." ++ t).data = s.data ++ '.' :: t.data := by
    simp [String.data_append]
  simp [cutDot, hdata, cutList_append s.data t.data h]

/-- Finding in an appended singleton skips a prefix with no match. -/
theorem find?_append_singleton {α : Type} (l : List α) (x : α) (p : α → Bool)
    (h : ∀ a ∈ l, p a = false) (hx : p x = true) :
    (l ++ [x]).find? p = some x := by
  induction l with
  | nil => simp [List.find?, hx]
  | cons a rest ih =>
    have ha : p a = false := h a (List.mem_cons_self a rest)
    have hr : ∀ b ∈ rest, p b = false := fun b hb => h b (List.mem_cons_of_mem a hb)
    simp [List.find?, ha, ih hr]

/-- Zipping a list with its image under `f` pairs each element with its
image. -/
theorem zip_map_self {α β : Type} (l : List α) (f : α → β) :
    l.zip (l.map f) = l.map fun a => (a, f a) := by
  induction l with
  | nil => rfl
  | cons x xs ih => simp [ih]

/-- Fields untouched by the key-id defaulting step. -/
theorem withKeyID_fields (g : String) (a : AccessKey) :
    (withKeyID g a).secret = a.secret ∧ (withKeyID g a).secretChecksum = a.secretChecksum ∧
    (withKeyID g a).issuedFor = a.issuedFor ∧ (withKeyID g a).deletedAt = a.deletedAt ∧
    (withKeyID g a).expiresAt = a.expiresAt ∧ (withKeyID g a).extension = a.extension ∧
    (withKeyID g a).extensionDeadline = a.extensionDeadline ∧ (withKeyID g a).name = a.name := by
  unfold withKeyID; split <;> exact ⟨rfl, rfl, rfl, rfl, rfl, rfl, rfl, rfl⟩

/-- Fields untouched by the secret defaulting step. -/
theorem withSecret_fields (g : String) (a : AccessKey) :
    (withSecret g a).keyID = a.keyID ∧ (withSecret g a).issuedFor = a.issuedFor ∧
    (withSecret g a).deletedAt = a.deletedAt ∧ (withSecret g a).expiresAt = a.expiresAt ∧
    (withSecret g a).extension = a.extension ∧
    (withSecret g a).extensionDeadline = a.extensionDeadline ∧ (withSecret g a).name = a.name := by
  unfold withSecret; split <;> exact ⟨rfl, rfl, rfl, rfl, rfl, rfl, rfl⟩

/-- Fields untouched by the expiry defaulting step. -/
theorem withExpiry_fields (now : Nat) (a : AccessKey) :
    (withExpiry now a).keyID = a.keyID ∧ (withExpiry now a).secret = a.secret ∧
    (withExpiry now a).secretChecksum = a.secretChecksum ∧
    (withExpiry now a).issuedFor = a.issuedFor ∧ (withExpiry now a).deletedAt = a.deletedAt ∧
    (withExpiry now a).extension = a.extension ∧
    (withExpiry now a).extensionDeadline = a.extensionDeadline ∧
    (withExpiry now a).name = a.name := by
  unfold withExpiry; split <;> exact ⟨rfl, rfl, rfl, rfl, rfl, rfl, rfl, rfl⟩

/-- Fields untouched by the name defaulting step when it succeeds. -/
theorem withName_ok_fields (identities : List Identity) (newID : Nat) (a k : AccessKey)
    (h : withName identities newID a = .ok k) :
    k.keyID = a.keyID ∧ k.secret = a.secret ∧ k.secretChecksum = a.secretChecksum ∧
    k.issuedFor = a.issuedFor ∧ k.deletedAt = a.deletedAt ∧ k.expiresAt = a.expiresAt ∧
    k.extension = a.extension ∧ k.extensionDeadline = a.extensionDeadline := by
  unfold withName at h
  split at h
  · split at h
    all_goals try simp only [] at h
    all_goals
      split at h
      · exact absurd h (by simp)
      · obtain rfl := (Except.ok.injEq _ _).mp h
        exact ⟨rfl, rfl, rfl, rfl, rfl, rfl, rfl, rfl⟩
  · obtain rfl := (Except.ok.injEq _ _).mp h
    exact ⟨rfl, rfl, rfl, rfl, rfl, rfl, rfl, rfl⟩

/-- Inversion of a successful `CreateAccessKey`: the credential body is
the composite of the final key id and secret, the stored checksum is the
digest of the final secret, the store gains exactly the projected row,
and the identity and soft-delete fields pass through from the input. -/
theorem CreateAccessKey_ok_inv (store : AccessKeyStore) (identities : List Identity)
    (genKeyID genSecret : String) (newID now : Nat) (accessKey k : AccessKey)
    (body : String) (store' : AccessKeyStore)
    (hok : CreateAccessKey store identities genKeyID genSecret newID now accessKey
      = .ok (body, k, store')) :
    body = k.keyID ++ "." ++ k.secret ∧
    k.secretChecksum = secretChecksum k.secret ∧
    store' = store ++ [accessKeyValues k] ∧
    k.issuedFor = accessKey.issuedFor ∧
    k.deletedAt = accessKey.deletedAt := by
  unfold CreateAccessKey at hok
  split at hok; · exact absurd hok (by simp)
  split at hok; · exact absurd hok (by simp)
  simp only [ne_eq] at hok
  split at hok; · exact absurd hok (by simp)
  split at hok; · exact absurd hok (by simp)
  rcases hw : withName identities newID
      (withExpiry now
        { withSecret genSecret (withKeyID genKeyID accessKey) with
          secretChecksum :=
            secretChecksum (withSecret genSecret (withKeyID genKeyID accessKey)).secret })
    with e | k5 <;> rw [hw] at hok
  · exact absurd hok (by simp)
  · obtain ⟨hb, hk, hs⟩ := by simpa using hok
    obtain ⟨w1, w2, w3, w4, w5, _, _, _⟩ := withName_ok_fields _ _ _ _ hw
    subst hb hk hs
    refine ⟨rfl, ?_, rfl, ?_, ?_⟩
    · rw [w3, w2]
      simp [withExpiry_fields]
    · rw [w4]
      simp [withExpiry_fields, withSecret_fields, withKeyID_fields]
    · rw [w5]
      simp [withExpiry_fields, withSecret_fields, withKeyID_fields]

/-! ## Claims -/

/-- C1: the claim says a request with no protocol-version header fails
with a 400 `BadRequest` naming the required header. The code disagrees:
`versionFromHeader` first replaces an empty header value with `"0.0.0"`,
so the `Infra-Version header required` error is unreachable for every
header value, a missing header parses as version `0.0.0`, and dispatch
proceeds (to the latest handler, or to the oldest versioned one); only
the half about a parsable header such as `0.12.3` holds. The repository's
own test expects the 400, so this is a bug in the code. -/
theorem C1_version_header_never_required :
    versionFromHeader "" = .ok ⟨0, 0, 0⟩ ∧
    dispatch ([] : List (SemVer × Nat)) "" = .latest ∧
    dispatch [(⟨0, 12, 0⟩, (12 : Nat))] "" = .versioned 12 ∧
    versionFromHeader "0.12.3" = .ok ⟨0, 12, 3⟩ ∧
    ∀ hdr : String,
      (∃ v, versionFromHeader hdr = .ok v) ∨
        versionFromHeader hdr = .error (.wrap "invalid Infra-Version header" ErrBadRequest) := by
  refine ⟨rfl, rfl, rfl, rfl, ?_⟩
  intro hdr
  by_cases he : hdr = ""
  · subst he
    exact Or.inl ⟨⟨0, 0, 0⟩, rfl⟩
  · unfold versionFromHeader
    have hb : (hdr == "") = false := by simpa using he
    simp only [hb, Bool.false_eq_true, if_false]
    rcases hp : parseSemVer hdr with _ | v <;> simp [hp]

/-- C3: `handlerForVersion` returns exactly the first registered handler
whose version is not less than the requested one (it is `List.find?` with
the predicate "not requested-greater-than registered", mapped to the
handler), returns `none` when every registered version is below the
request, and on the claim's instances: registered `[0.10.0, 0.12.0]`
with request `0.11.0` selects the `0.12.0` handler, while `0.13.0`
selects none and dispatch falls through to the latest handler. -/
theorem C3_handler_selection {α : Type} (versions : List (SemVer × α)) (reqVer : SemVer) :
    handlerForVersion versions reqVer
      = (versions.find? fun p => ! semverGt reqVer p.1).map Prod.snd ∧
    ((∀ p ∈ versions, semverGt reqVer p.1 = true) → handlerForVersion versions reqVer = none) ∧
    handlerForVersion [(⟨0, 10, 0⟩, (10 : Nat)), (⟨0, 12, 0⟩, 12)] ⟨0, 11, 0⟩ = some 12 ∧
    handlerForVersion [(⟨0, 10, 0⟩, (10 : Nat)), (⟨0, 12, 0⟩, 12)] ⟨0, 13, 0⟩ = none ∧
    dispatch [(⟨0, 10, 0⟩, (10 : Nat)), (⟨0, 12, 0⟩, 12)] "0.11.0" = .versioned 12 ∧
    dispatch [(⟨0, 10, 0⟩, (10 : Nat)), (⟨0, 12, 0⟩, 12)] "0.13.0" = .latest := by
  have hfind : handlerForVersion versions reqVer
      = (versions.find? fun p => ! semverGt reqVer p.1).map Prod.snd := by
    induction versions with
    | nil => rfl
    | cons v rest ih =>
      rcases v with ⟨ver, h⟩
      by_cases hgt : semverGt reqVer ver = true <;>
        simp [handlerForVersion, List.find?, hgt, ih]
  refine ⟨hfind, ?_, rfl, rfl, rfl, rfl⟩
  intro hall
  rw [hfind, List.find?_eq_none.mpr ?_]
  · rfl
  · intro p hp
    simp [hall p hp]

/-- C3 witness: the first conjunct has no hypothesis; the fall-through
conjunct applied at the claim's `0.13.0` instance. -/
theorem C3_handler_selection_witness :
    handlerForVersion [(⟨0, 10, 0⟩, (10 : Nat)), (⟨0, 12, 0⟩, 12)] ⟨0, 13, 0⟩ = none :=
  (C3_handler_selection [(⟨0, 10, 0⟩, (10 : Nat)), (⟨0, 12, 0⟩, 12)] ⟨0, 13, 0⟩).2.1
    (by decide)

/-- C4 counterexample: for exactly two required roles the message joins
them as `"admin, or operator"` (the loop writes `", or "` before the last
role whenever there is more than one), not `"admin or operator"` as the
claim states. -/
theorem C4_two_role_message_counterexample :
    authorizationErrorMessage "grant" "create" ["admin", "operator"]
      = "you do not have permission to create grant, requires role admin, or operator" ∧
    rolesJoin ["admin", "operator"] = "admin, or operator" ∧
    rolesJoin ["admin", "operator"] ≠ "admin or operator" := by
  refine ⟨rfl, rfl, ?_⟩
  decide

/-- C4 as amended: `HandleAuthErr` rewrites exactly the errors that
structurally match the `ErrNotAuthorized` sentinel (a match survives
further wrapping) into an `AuthorizationError` carrying the resource,
operation and roles, leaves every other error (and nil) unchanged, and
the error message enumerates the required roles as `"X"` for one role,
`"X, or Y"` for two, and `"X, Y, ..., or Z"` for three or more (the code
always writes a comma before the final `"or"`). -/
theorem C4_handle_auth_err (e : GoError) (resource operation : String) (roles : List String)
    (x y z w : String) :
    (errorsIs e ErrNotAuthorized = true →
      HandleAuthErr (some e) resource operation roles
        = some (.authorization resource operation roles)) ∧
    (errorsIs e ErrNotAuthorized = false →
      HandleAuthErr (some e) resource operation roles = some e) ∧
    HandleAuthErr none resource operation roles = none ∧
    (∀ msg, errorsIs e ErrNotAuthorized = true →
      errorsIs (.wrap msg e) ErrNotAuthorized = true) ∧
    errorsIs ErrNotAuthorized ErrNotAuthorized = true ∧
    rolesJoin [x] = x ∧
    rolesJoin [x, y] = x ++ ", or " ++ y ∧
    rolesJoin [x, y, z] = x ++ ", " ++ y ++ ", or " ++ z ∧
    rolesJoin [x, y, z, w] = x ++ ", " ++ y ++ ", " ++ z ++ ", or " ++ w ∧
    authorizationErrorMessage resource operation roles
      = "you do not have permission to " ++ operation ++ " " ++ resource ++
          ", requires role " ++ rolesJoin roles := by
  refine ⟨?_, ?_, rfl, ?_, rfl, rfl, rfl, rfl, rfl, rfl⟩
  · intro h
    simp [HandleAuthErr, h]
  · intro h
    simp [HandleAuthErr, h]
  · intro msg h
    unfold errorsIs
    simp [h]

/-- C4 witness: a wrapped sentinel is rewritten into the descriptive
authorization error. -/
theorem C4_handle_auth_err_witness :
    HandleAuthErr (some (GoError.wrap "owner lookup" ErrNotAuthorized)) "grant" "create"
      ["admin"] = some (.authorization "grant" "create" ["admin"]) :=
  (C4_handle_auth_err (GoError.wrap "owner lookup" ErrNotAuthorized) "grant" "create"
    ["admin"] "a" "b" "c" "d").1 (by decide)

/-- C2: for a stored key with a non-zero extension deadline `t0`,
validating with the correct secret at `t1 ≤ t0` (and `t1 ≤ ExpiresAt`)
succeeds, returns the key with `ExtensionDeadline = t1 + Extension`, and
persists exactly that update; validating at `t2 > t0` fails with
`ErrAccessKeyDeadlineExceeded` even though `t2 ≤ ExpiresAt`; and the
deadline error structurally matches the expired sentinel (it wraps it). -/
theorem C2_sliding_window (store : AccessKeyStore) (r : AccessKeyRow)
    (body keyID secret : String) (t1 t2 : Nat)
    (hcut : cutDot body = some (keyID, secret))
    (hfind : store.find? (fun q => decide (q.deletedAt = none ∧ q.keyID = keyID)) = some r)
    (hsum : r.secretChecksum = secretChecksum secret)
    (hdl : r.extensionDeadline ≠ 0)
    (h1exp : t1 ≤ r.expiresAt) (h1 : t1 ≤ r.extensionDeadline)
    (h2 : r.extensionDeadline < t2) (h2exp : t2 ≤ r.expiresAt) :
    ValidateAccessKey store body t1
      = .ok ({ scanAccessKey r with extensionDeadline := t1 + r.extension },
             saveRow store (accessKeyValues
               { scanAccessKey r with extensionDeadline := t1 + r.extension })) ∧
    ValidateAccessKey store body t2 = .error ErrAccessKeyDeadlineExceeded ∧
    errorsIs ErrAccessKeyDeadlineExceeded ErrAccessKeyExpired = true := by
  have hget : GetAccessKey store keyID = .ok (scanAccessKey r) := by
    unfold GetAccessKey
    rw [hfind]
  have hctc : constantTimeCompare (scanAccessKey r).secretChecksum (secretChecksum secret)
      = true := by
    show constantTimeCompare r.secretChecksum (secretChecksum secret) = true
    rw [hsum]
    exact constantTimeCompare_self _
  have hdl' : (scanAccessKey r).extensionDeadline ≠ 0 := hdl
  refine ⟨?_, ?_, by decide⟩
  · have hne : ¬ (scanAccessKey r).expiresAt < t1 := Nat.not_lt.mpr h1exp
    have hnd : ¬ (scanAccessKey r).extensionDeadline < t1 := Nat.not_lt.mpr h1
    have hsec : (scanAccessKey r).secret = "" := rfl
    simp [ValidateAccessKey, hcut, hget, hctc, hne, hnd, hdl', SaveAccessKey, hsec]
    exact ⟨rfl, rfl⟩
  · have hne : ¬ (scanAccessKey r).expiresAt < t2 := Nat.not_lt.mpr h2exp
    have hd2 : (scanAccessKey r).extensionDeadline < t2 := h2
    simp [ValidateAccessKey, hcut, hget, hctc, hne, hd2, hdl']

/-- C2 witness: `sampleRow` has deadline 500 and extension 50; a
validation at 400 succeeds and slides the deadline to 450, one at 600
fails with the deadline-exceeded error. -/
theorem C2_sliding_window_witness :
    (∃ k s2, ValidateAccessKey [sampleRow] "keyid12345.secretsecretsecretsecret" 400
        = .ok (k, s2) ∧ k.extensionDeadline = 450) ∧
    ValidateAccessKey [sampleRow] "keyid12345.secretsecretsecretsecret" 600
      = .error ErrAccessKeyDeadlineExceeded :=
  ⟨⟨_, _,
    (C2_sliding_window [sampleRow] sampleRow "keyid12345.secretsecretsecretsecret"
      "keyid12345" "secretsecretsecretsecret" 400 600 rfl rfl rfl (by decide) (by decide)
      (by decide) (by decide) (by decide)).1, rfl⟩,
   (C2_sliding_window [sampleRow] sampleRow "keyid12345.secretsecretsecretsecret"
      "keyid12345" "secretsecretsecretsecret" 400 600 rfl rfl rfl (by decide) (by decide)
      (by decide) (by decide) (by decide)).2.1⟩

/-- C5: once now is after `ExpiresAt`, validation with the correct secret
fails with `ErrAccessKeyExpired`, whatever the values of `Extension` and
`ExtensionDeadline` are (the stored row is quantified over both). -/
theorem C5_expiry_hard_ceiling (store : AccessKeyStore) (r : AccessKeyRow) (ext dl : Nat)
    (body keyID secret : String) (now : Nat)
    (hcut : cutDot body = some (keyID, secret))
    (hfind : store.find? (fun q => decide (q.deletedAt = none ∧ q.keyID = keyID))
      = some { r with extension := ext, extensionDeadline := dl })
    (hsum : r.secretChecksum = secretChecksum secret)
    (hexp : r.expiresAt < now) :
    ValidateAccessKey store body now = .error ErrAccessKeyExpired := by
  have hget : GetAccessKey store keyID
      = .ok (scanAccessKey { r with extension := ext, extensionDeadline := dl }) := by
    unfold GetAccessKey
    rw [hfind]
  have hctc : constantTimeCompare
      (scanAccessKey { r with extension := ext, extensionDeadline := dl }).secretChecksum
      (secretChecksum secret) = true := by
    show constantTimeCompare r.secretChecksum (secretChecksum secret) = true
    rw [hsum]
    exact constantTimeCompare_self _
  have hx : (scanAccessKey { r with extension := ext, extensionDeadline := dl }).expiresAt
      < now := hexp
  simp [ValidateAccessKey, hcut, hget, hctc, hx]

/-- C5 witness: `sampleRow` expires at 10000; with extension 123 and
deadline 1 the validation at 20000 still reports the expired error. -/
theorem C5_expiry_hard_ceiling_witness :
    ValidateAccessKey [{ sampleRow with extension := 123, extensionDeadline := 1 }]
      "keyid12345.secretsecretsecretsecret" 20000 = .error ErrAccessKeyExpired :=
  C5_expiry_hard_ceiling [{ sampleRow with extension := 123, extensionDeadline := 1 }]
    sampleRow 123 1 "keyid12345.secretsecretsecretsecret" "keyid12345"
    "secretsecretsecretsecret" 20000 rfl rfl rfl (by decide)

/-- C6 counterexample: `dotKey` satisfies every condition the claim
lists — non-zero `issuedFor` and `providerID`, key id and secret of the
fixed lengths, no identity resolution needed — and is accepted by
`CreateAccessKey`, yet immediate validation of the returned composite
credential fails: the credential splits at the *first* dot, which falls
inside the supplied key id `"a.bcdefghi"`, so the lookup is for key id
`"a"` and reports not-found. -/
theorem C6_dotted_key_counterexample :
    dotKey.issuedFor ≠ 0 ∧ dotKey.providerID ≠ 0 ∧
    dotKey.keyID.length = AccessKeyKeyLength ∧
    dotKey.secret.length = AccessKeySecretLength ∧
    ∃ body k store, CreateAccessKey [] [] "" "" 42 1000 dotKey = .ok (body, k, store) ∧
      1000 ≤ k.expiresAt ∧ k.extensionDeadline = 0 ∧
      ValidateAccessKey store body 1000
        = .error (.wrap "could not get access key from database, it may not exist"
            ErrNotFound) := by
  refine ⟨by decide, by decide, by decide, by decide, _, _, _, rfl, by decide, rfl, rfl⟩

/-- C6 as amended: the round-trip holds once the final key id contains no
dot. For every creation accepted by `CreateAccessKey` whose resulting key
id is dot-free, started from a not-yet-deleted record, with no other live
row sharing the key id, validated before the expiry and (when set) the
extension deadline, `ValidateAccessKey` of the returned credential
succeeds and returns a key issued for the same identity. -/
theorem C6_round_trip (store : AccessKeyStore) (identities : List Identity)
    (genKeyID genSecret : String) (newID now : Nat) (key k : AccessKey)
    (body : String) (store' : AccessKeyStore)
    (hok : CreateAccessKey store identities genKeyID genSecret newID now key
      = .ok (body, k, store'))
    (hnodot : '.' ∉ k.keyID.data)
    (hfresh : ∀ r ∈ store, ¬ (r.deletedAt = none ∧ r.keyID = k.keyID))
    (hdel : key.deletedAt = none)
    (hexp : now ≤ k.expiresAt)
    (hdl : k.extensionDeadline = 0 ∨ now ≤ k.extensionDeadline) :
    ∃ k2 store2, ValidateAccessKey store' body now = .ok (k2, store2) ∧
      k2.issuedFor = key.issuedFor := by
  obtain ⟨hb, hsum, hst, hiss, hdelk⟩ :=
    CreateAccessKey_ok_inv store identities genKeyID genSecret newID now key k body store' hok
  subst hb hst
  have hcut : cutDot (k.keyID ++ "." ++ k.secret) = some (k.keyID, k.secret) :=
    cutDot_append k.keyID k.secret hnodot
  have hrow : (accessKeyValues k).deletedAt = none := hdel ▸ hdelk
  have hfind : (store ++ [accessKeyValues k]).find?
      (fun q => decide (q.deletedAt = none ∧ q.keyID = k.keyID)) = some (accessKeyValues k) := by
    apply find?_append_singleton
    · intro r hr
      simpa using hfresh r hr
    · simp only [decide_eq_true_eq]
      exact ⟨hrow, rfl⟩
  have hget : GetAccessKey (store ++ [accessKeyValues k]) k.keyID
      = .ok (scanAccessKey (accessKeyValues k)) := by
    unfold GetAccessKey
    rw [hfind]
  have hctc : constantTimeCompare (scanAccessKey (accessKeyValues k)).secretChecksum
      (secretChecksum k.secret) = true := by
    show constantTimeCompare k.secretChecksum (secretChecksum k.secret) = true
    rw [hsum]
    exact constantTimeCompare_self _
  have hne : ¬ (scanAccessKey (accessKeyValues k)).expiresAt < now := Nat.not_lt.mpr hexp
  by_cases hz : k.extensionDeadline = 0
  · have hz' : (scanAccessKey (accessKeyValues k)).extensionDeadline = 0 := hz
    refine ⟨scanAccessKey (accessKeyValues k), store ++ [accessKeyValues k], ?_, hiss⟩
    simp [ValidateAccessKey, hcut, hget, hctc, hne, hz']
  · have hle : now ≤ k.extensionDeadline := hdl.resolve_left hz
    have hz' : ¬ (scanAccessKey (accessKeyValues k)).extensionDeadline = 0 := hz
    have hnd : ¬ (scanAccessKey (accessKeyValues k)).extensionDeadline < now :=
      Nat.not_lt.mpr hle
    have hsec : (scanAccessKey (accessKeyValues k)).secret = "" := rfl
    refine ⟨{ scanAccessKey (accessKeyValues k) with
        extensionDeadline := now + (scanAccessKey (accessKeyValues k)).extension },
      saveRow (store ++ [accessKeyValues k])
        (accessKeyValues { scanAccessKey (accessKeyValues k) with
          extensionDeadline := now + (scanAccessKey (accessKeyValues k)).extension }),
      ?_, hiss⟩
    simp [ValidateAccessKey, hcut, hget, hctc, hne, hz', hnd, SaveAccessKey, hsec]

/-- C6 witness: a generated key id, secret, id and default expiry; the
credential validates immediately and reports identity 7. -/
theorem C6_round_trip_witness :
    ∃ body k store' k2 store2,
      CreateAccessKey [] [⟨7, "usera"⟩] "keyid12345" "secretsecretsecretsecret" 42 1000 rtKey
        = .ok (body, k, store') ∧
      ValidateAccessKey store' body 1000 = .ok (k2, store2) ∧
      k2.issuedFor = 7 := by
  obtain ⟨k2, store2, hv, hiss⟩ :=
    C6_round_trip [] [⟨7, "usera"⟩] "keyid12345" "secretsecretsecretsecret" 42 1000 rtKey
      _ _ _ rfl (by decide) (by simp) rfl (by decide) (Or.inl rfl)
  exact ⟨_, _, _, _, _, rfl, hv, hiss⟩

/-- C7: a successful creation stores the SHA-256 digest of the final
secret; `SaveAccessKey` with a non-empty secret recomputes the digest
before persisting; the persisted row is a function of the key that
ignores the plaintext secret field; and the persisted column set carries
`secret_checksum` but no `secret` column. -/
theorem C7_secret_never_persisted (store store0 : AccessKeyStore) (identities : List Identity)
    (genKeyID genSecret : String) (newID now : Nat) (inKey k key : AccessKey)
    (body : String) (store' : AccessKeyStore)
    (hok : CreateAccessKey store0 identities genKeyID genSecret newID now inKey
      = .ok (body, k, store'))
    (hs : key.secret ≠ "") :
    k.secretChecksum = sha256Bytes (strBytes k.secret) ∧
    store' = store0 ++ [accessKeyValues k] ∧
    (SaveAccessKey store key).2.secretChecksum = sha256Bytes (strBytes key.secret) ∧
    (SaveAccessKey store key).1 = saveRow store (accessKeyValues (SaveAccessKey store key).2) ∧
    (∀ a : AccessKey, ∀ s : String, accessKeyValues { a with secret := s } = accessKeyValues a) ∧
    "secret" ∉ accessKeyColumns ∧
    "secret_checksum" ∈ accessKeyColumns := by
  obtain ⟨_, hsum, hst, _, _⟩ :=
    CreateAccessKey_ok_inv store0 identities genKeyID genSecret newID now inKey k body
      store' hok
  refine ⟨hsum, hst, ?_, rfl, fun a s => rfl, by decide, by decide⟩
  simp [SaveAccessKey, hs, secretChecksum]

/-- C7 witness: the concrete creation stores the digest of the generated
secret, and the column facts hold. -/
theorem C7_secret_never_persisted_witness :
    ∃ body k store',
      CreateAccessKey [] [⟨7, "usera"⟩] "keyid12345" "secretsecretsecretsecret" 42 1000 rtKey
        = .ok (body, k, store') ∧
      k.secretChecksum = sha256Bytes (strBytes k.secret) ∧
      store' = [accessKeyValues k] ∧
      "secret" ∉ accessKeyColumns ∧ "secret_checksum" ∈ accessKeyColumns := by
  obtain ⟨h1, h2, _, _, _, h6, h7⟩ :=
    C7_secret_never_persisted [] [] [⟨7, "usera"⟩] "keyid12345" "secretsecretsecretsecret"
      42 1000 rtKey _ rtSecretKey _ _ rfl (by decide)
  exact ⟨_, _, _, rfl, h1, by rw [List.nil_append] at h2; exact h2, h6, h7⟩

/-- A `Can` check succeeds exactly when a matching grant exists. -/
theorem Can_iff_exists (db : GrantStore) (subject : PolymorphicID) (resource : String)
    (privileges : List String) :
    Can db subject resource privileges = true ↔
      ∃ g ∈ db.grants, grantMatches db subject resource privileges g = true := by
  unfold Can ListGrants
  simp only [decide_eq_true_eq, List.length_take, Nat.lt_min, Nat.zero_lt_one, true_and,
    List.length_pos_iff_exists_mem, List.mem_filter]

/-- C8: `Can` is true exactly when at least one non-deleted grant exists
whose subject is the given subject or one of its groups, on the given
resource, with one of the given privileges; the underlying grant query is
bounded to one row; and in particular group membership alone suffices:
a user in group G passes when G holds the privilege on the resource. -/
theorem C8_can_inherited (db : GrantStore) (subject : PolymorphicID) (resource : String)
    (privileges : List String) :
    (Can db subject resource privileges = true ↔
      ∃ g ∈ db.grants, grantMatches db subject resource privileges g = true) ∧
    (ListGrants db 1 subject resource privileges).length ≤ 1 ∧
    (∀ userId groupId priv,
      (userId, groupId) ∈ db.memberships →
      (⟨.group groupId, priv, resource, none⟩ : Grant) ∈ db.grants →
      priv ∈ privileges →
      Can db (.user userId) resource privileges = true) := by
  refine ⟨Can_iff_exists db subject resource privileges, ?_, ?_⟩
  · unfold ListGrants
    simp only [List.length_take]
    exact Nat.min_le_left 1 _
  · intro userId groupId priv hm hg hp
    apply (Can_iff_exists db (.user userId) resource privileges).mpr
    refine ⟨⟨.group groupId, priv, resource, none⟩, hg, ?_⟩
    simp [grantMatches, hp, hm]

/-- C8 witness: in `sampleGrantDB` user 7 passes `Can` for the `admin`
privilege on `infra` purely through membership in group 9. -/
theorem C8_can_inherited_witness :
    Can sampleGrantDB (.user 7) "infra" ["admin"] = true :=
  (C8_can_inherited sampleGrantDB (.user 7) "infra" ["admin"]).2.2 7 9 "admin"
    (by decide) (by decide) (by decide)

/-- C9: with no selector set `DeleteAccessKeys` fails with the
validation error, and every successful deletion is a soft delete scoped
to the tenant: the store keeps its length, every row is either unchanged
or merely stamped with `deleted_at = now`, and rows of other
organizations are never touched. -/
theorem C9_soft_delete_scoped (store : AccessKeyStore) (orgID now : Nat)
    (opts : DeleteAccessKeysOptions) :
    (opts.byID = 0 → opts.byUserID = 0 → opts.byProviderID = 0 →
      DeleteAccessKeys store orgID now opts
        = .error (.base "DeleteAccessKeys requires an ID to delete")) ∧
    ∀ store', DeleteAccessKeys store orgID now opts = .ok store' →
      store'.length = store.length ∧
      (∀ pr ∈ store.zip store', pr.2 = pr.1 ∨ pr.2 = { pr.1 with deletedAt := some now }) ∧
      (∀ pr ∈ store.zip store', pr.1.organizationID ≠ orgID → pr.2 = pr.1) := by
  constructor
  · intro h1 h2 h3
    simp [DeleteAccessKeys, h1, h2, h3]
  · intro store' hok
    have hpred : ∃ pred : AccessKeyRow → Bool,
        store' = store.map (fun r =>
          if pred r && decide (r.organizationID = orgID) then { r with deletedAt := some now }
          else r) := by
      unfold DeleteAccessKeys at hok
      split at hok
      · exact ⟨_, ((Except.ok.injEq _ _).mp hok).symm⟩
      · split at hok
        · exact ⟨_, ((Except.ok.injEq _ _).mp hok).symm⟩
        · split at hok
          · exact ⟨_, ((Except.ok.injEq _ _).mp hok).symm⟩
          · exact absurd hok (by simp)
    obtain ⟨pred, rfl⟩ := hpred
    have hz : store.zip (store.map (fun r =>
        if pred r && decide (r.organizationID = orgID) then { r with deletedAt := some now }
        else r)) = store.map (fun r => (r,
          if pred r && decide (r.organizationID = orgID) then { r with deletedAt := some now }
          else r)) := zip_map_self store _
    refine ⟨by simp, ?_, ?_⟩
    · intro pr hpr
      rw [hz] at hpr
      obtain ⟨r, _, rfl⟩ := List.mem_map.mp hpr
      by_cases hc : (pred r && decide (r.organizationID = orgID)) = true
      · right
        simp [hc]
      · left
        simp [hc]
    · intro pr hpr horg
      rw [hz] at hpr
      obtain ⟨r, _, rfl⟩ := List.mem_map.mp hpr
      have hfalse : (pred r && decide (r.organizationID = orgID)) = false := by
        simp [horg]
      simp [hfalse]

/-- C9 witness: no selector yields the validation error; selecting by id
preserves the store length. -/
theorem C9_soft_delete_scoped_witness :
    DeleteAccessKeys [sampleRow] 5 999 ⟨0, 0, 0⟩
      = .error (.base "DeleteAccessKeys requires an ID to delete") :=
  (C9_soft_delete_scoped [sampleRow] 5 999 ⟨0, 0, 0⟩).1 rfl rfl rfl

/-- C10: when several selectors are set, no error is raised and the
highest-precedence one wins: `ByID` beats `ByUserID` and `ByProviderID`,
and `ByUserID` beats `ByProviderID`; the lower-precedence selectors are
ignored. -/
theorem C10_selector_precedence (store : AccessKeyStore) (orgID now : Nat) (a b c : Nat)
    (ha : a ≠ 0) :
    DeleteAccessKeys store orgID now ⟨a, b, c⟩ = DeleteAccessKeys store orgID now ⟨a, 0, 0⟩ ∧
    (∀ b2 c2 : Nat, b2 ≠ 0 → DeleteAccessKeys store orgID now ⟨0, b2, c2⟩
        = DeleteAccessKeys store orgID now ⟨0, b2, 0⟩) ∧
    ∃ store', DeleteAccessKeys store orgID now ⟨a, b, c⟩ = .ok store' := by
  refine ⟨?_, ?_, ?_⟩
  · simp [DeleteAccessKeys, ha]
  · intro b2 c2 hb
    simp [DeleteAccessKeys, hb]
  · refine ⟨store.map (fun r =>
      if decide (r.id = a) && decide (r.organizationID = orgID) then
        { r with deletedAt := some now }
      else r), ?_⟩
    simp [DeleteAccessKeys, ha]

/-- C10 witness: all three selectors set behaves exactly like only
`ByID` set, with no error. -/
theorem C10_selector_precedence_witness :
    DeleteAccessKeys [sampleRow] 5 999 ⟨1, 2, 3⟩
      = DeleteAccessKeys [sampleRow] 5 999 ⟨1, 0, 0⟩ :=
  (C10_selector_precedence [sampleRow] 5 999 1 2 3 (by decide)).1

end Infra
